import Mathlib

/-!
Shallow embedding of the antenna-model repository's core simulation layer
(`antenna_model.py`): geometry value objects, the pymininec command-line
serialization, the solver-output parsers, and the `simulate_pattern`
facade that merges two 0-90 degree zenith sweeps into a full 0-180 degree
elevation cut.

Modelling conventions:
* Python floats are modelled as rationals (`ℚ`); arithmetic on them is exact.
* The external solver subprocess is modelled as an oracle
  `solver : List String → String` mapping a command-line argument vector to
  the text the process writes to stdout.
* Python exceptions (`ValueError`) are modelled with `Except String`.
* Number-to-string formatting helpers (`pyRepr` for `repr(float)`, `f6` for
  `f"{x:.6f}"`, `gFmt` for `f"{x:g}"`) are exact-decimal models of CPython's
  formatting; they agree with CPython on the decimally-representable values
  exercised here, while CPython would shorten some non-terminating binary
  expansions differently.  No theorem below depends on the precise digits
  these helpers emit.
-/

/-- Decimal digit string of a natural number (model of Python `str(nat)`). -/
def natStr (n : ℕ) : String := toString n

/-- Digit string of an integer (model of Python `str(int)`). -/
def intStr (n : ℤ) : String := toString n

/-- Left-pad a string with zeros to width `w`. -/
def padZeros (s : String) (w : ℕ) : String :=
  String.mk (List.replicate (w - s.length) '0') ++ s

/-- Remove trailing zero characters, keeping at least one character. -/
def stripZeros (s : String) : String :=
  let r := s.toList.reverse.dropWhile (fun c => c == '0')
  if r.isEmpty then "0" else String.mk r.reverse

/-- Model of Python `round()` on a rational value: round half to even
(banker's rounding), returning an integer. -/
def pyRound (q : ℚ) : ℤ :=
  if q - ⌊q⌋ < 1/2 then ⌊q⌋
  else if 1/2 < q - ⌊q⌋ then ⌊q⌋ + 1
  else if 2 ∣ ⌊q⌋ then ⌊q⌋ else ⌊q⌋ + 1

/-- Model of Python `int()` on a float: truncation toward zero. -/
def pyInt (q : ℚ) : ℤ := if 0 ≤ q then ⌊q⌋ else ⌈q⌉

/-- Model of Python `repr(float)` / f-string interpolation of a float, for
decimally-representable rationals: integer part, a dot, and the fractional
digits (truncated at 17 places, trailing zeros stripped, at least one digit). -/
def pyRepr (q : ℚ) : String :=
  let sign := if q < 0 then "-" else ""
  let a := |q|
  let scaled : ℕ := a.num.natAbs * 10 ^ 17 / a.den
  sign ++ natStr (scaled / 10 ^ 17) ++ "." ++
    stripZeros (padZeros (natStr (scaled % 10 ^ 17)) 17)

/-- Model of Python `f"{x:.6f}"`: fixed-point with exactly six decimals,
rounding ties to even. -/
def f6 (q : ℚ) : String :=
  let n := pyRound (q * 1000000)
  let sign := if n < 0 then "-" else ""
  sign ++ natStr (n.natAbs / 1000000) ++ "." ++ padZeros (natStr (n.natAbs % 1000000)) 6

/-- The rational value denoted by the six-decimal rendering of `q`
(what Python's `float(f"{q:.6f}")` re-parses). -/
def q6 (q : ℚ) : ℚ := (pyRound (q * 1000000) : ℚ) / 1000000

/-- Model of Python `f"{x:g}"` for moderate magnitudes: integers render with
no decimal point, other values with up to six decimals, trailing zeros
stripped. -/
def gFmt (q : ℚ) : String :=
  if q.den = 1 then intStr q.num
  else
    let n := pyRound (q * 1000000)
    let sign := if n < 0 then "-" else ""
    let fr := stripZeros (padZeros (natStr (n.natAbs % 1000000)) 6)
    if fr = "0" then sign ++ natStr (n.natAbs / 1000000)
    else sign ++ natStr (n.natAbs / 1000000) ++ "." ++ fr

/-- Numeric value of a (already validated) list of decimal digit characters. -/
def digitsToNat (ds : List Char) : ℕ :=
  ds.foldl (fun a c => 10 * a + (c.toNat - 48)) 0

/-- Parse the exponent tail of a float literal (everything after `e`/`E`):
an optional sign followed by at least one digit, consuming the whole input. -/
def parseExpTail (cs : List Char) : Option ℤ :=
  let (es, cs1) : ℤ × List Char :=
    match cs with
    | '+' :: r => (1, r)
    | '-' :: r => (-1, r)
    | r => (1, r)
  let ds := cs1.takeWhile Char.isDigit
  let rest := cs1.dropWhile Char.isDigit
  if ds.isEmpty || !rest.isEmpty then none else some (es * digitsToNat ds)

/-- Parse an unsigned float literal: digits with an optional fractional part
(at least one digit overall) and an optional exponent. -/
def pyFloatCore (cs : List Char) : Option ℚ :=
  let ip := cs.takeWhile Char.isDigit
  let cs1 := cs.dropWhile Char.isDigit
  let (fp, cs2) : List Char × List Char :=
    match cs1 with
    | '.' :: r => (r.takeWhile Char.isDigit, r.dropWhile Char.isDigit)
    | _ => ([], cs1)
  if ip.isEmpty && fp.isEmpty then none
  else
    let m : ℚ := (digitsToNat ip : ℚ) + (digitsToNat fp : ℚ) / 10 ^ fp.length
    match cs2 with
    | [] => some m
    | 'e' :: r => (parseExpTail r).map (fun e => m * 10 ^ e)
    | 'E' :: r => (parseExpTail r).map (fun e => m * 10 ^ e)
    | _ => none

/-- Model of Python `float(str)` on whitespace-free tokens: an optional sign
followed by a finite decimal literal with optional exponent.  The special
values `inf`/`nan` (never produced by the solver's numeric columns) are not
modelled and yield `none`. -/
def pyFloat (s : String) : Option ℚ :=
  match s.toList with
  | '+' :: r => pyFloatCore r
  | '-' :: r => (pyFloatCore r).map (fun m => -m)
  | r => pyFloatCore r

/-- Convert feet to meters (`feet_to_meters` in `antenna_model.py`). -/
def feet_to_meters (feet : ℚ) : ℚ := feet * (3048 / 10000)

/-- Convert meters to feet (`meters_to_feet` in `antenna_model.py`). -/
def meters_to_feet (meters : ℚ) : ℚ := meters / (3048 / 10000)

/-- A straight wire element (`AntennaElement` in `antenna_model.py`). -/
structure AntennaElement where
  x1 : ℚ
  y1 : ℚ
  z1 : ℚ
  x2 : ℚ
  y2 : ℚ
  z2 : ℚ
  segments : ℤ
  radius : ℚ
deriving DecidableEq, Repr

/-- A feedpoint record (`element_index`, `segment`, complex `voltage` stored
as a real/imaginary pair), as appended by `AntennaModel.add_feedpoint`. -/
structure Feedpoint where
  element_index : ℤ
  segment : ℤ
  voltage : ℚ × ℚ
deriving DecidableEq, Repr

instance : Inhabited Feedpoint := ⟨⟨0, 0, (1, 0)⟩⟩

/-- An antenna model: an ordered element list plus feedpoints
(`AntennaModel` in `antenna_model.py`). -/
structure AntennaModel where
  elements : List AntennaElement
  feedpoints : List Feedpoint
deriving DecidableEq, Repr

/-- `build_dipole_model`: a single center-fed dipole of the given total
length along the y-axis, with the default feedpoint at the center segment
`(segments + 1) // 2` (Python floor division) and unit voltage `1+0j`. -/
def build_dipole_model (total_length : ℚ) (segments : ℤ) (radius : ℚ) : AntennaModel :=
  let half_length := total_length / 2
  { elements := [{ x1 := 0, y1 := -half_length, z1 := 0,
                   x2 := 0, y2 := half_length, z2 := 0,
                   segments := segments, radius := radius }],
    feedpoints := [{ element_index := 0, segment := (segments + 1).fdiv 2, voltage := (1, 0) }] }

/-- `resonant_dipole_length`: the ARRL half-wave dipole length in meters,
`feet_to_meters (468 / freq_mhz)`. -/
def resonant_dipole_length (freq_mhz : ℚ) : ℚ :=
  feet_to_meters (468 / freq_mhz)

/-- ASCII lowercase of one character (model of Python `str.lower` for the
ASCII ground-type strings used here). -/
def lowerChar (c : Char) : Char :=
  if 'A' ≤ c ∧ c ≤ 'Z' then Char.ofNat (c.toNat + 32) else c

/-- ASCII lowercase of a string. -/
def pyLower (s : String) : String := String.mk (s.toList.map lowerChar)

/-- `get_ground_opts`: map a ground-type string to pymininec medium
arguments.  `free` yields no arguments at all; an unknown string raises a
`ValueError` at configuration time. -/
def get_ground_opts (ground_type : String) : Except String (Option (List String)) :=
  let g := pyLower ground_type
  if g = "free" then .ok none
  else if g = "poor" then .ok (some ["--medium=5,0.001,0"])
  else if g = "average" then .ok (some ["--medium=13,0.005,0"])
  else if g = "good" then .ok (some ["--medium=20,0.03,0"])
  else .error ("Unknown ground type: " ++ g)

/-- One far-field sample: elevation, azimuth, and total gain in dB
(a `{'el': ..., 'az': ..., 'gain': ...}` dict in `antenna_model.py`). -/
structure PatternPoint where
  el : ℚ
  az : ℚ
  gain : ℚ
deriving DecidableEq, Repr

/-- Zenith-to-elevation conversion used by `parse_pattern`: `90 - zenith`
when nonnegative, otherwise wrapped as `180 + (90 - zenith)`. -/
def zenithToEl (zenith : ℚ) : ℚ :=
  let el_offset := 90 - zenith
  if 0 ≤ el_offset then el_offset else 180 + el_offset

/-- Split a character stream at newline characters, accumulating the
current (reversed) line. -/
def splitLinesAux : List Char → List Char → List String
  | [], acc => [String.mk acc.reverse]
  | '\n' :: rest, acc => String.mk acc.reverse :: splitLinesAux rest []
  | c :: rest, acc => splitLinesAux rest (c :: acc)

/-- Model of Python `str.splitlines` for newline-separated solver output.
A trailing newline produces one extra empty fragment, which no parser below
can mistake for data. -/
def pyLines (s : String) : List String := splitLinesAux s.toList []

/-- Split a character stream into maximal whitespace-free runs,
accumulating the current (reversed) token. -/
def tokensAux : List Char → List Char → List String
  | [], acc => if acc.isEmpty then [] else [String.mk acc.reverse]
  | c :: rest, acc =>
    if c.isWhitespace then
      if acc.isEmpty then tokensAux rest [] else String.mk acc.reverse :: tokensAux rest []
    else tokensAux rest (c :: acc)

/-- Model of Python `line.strip().split()`: whitespace-delimited tokens
(splitting on runs of whitespace also strips, so the `strip()` is
absorbed). -/
def pyTokens (line : String) : List String := tokensAux line.toList []

/-- Parse one data row of the pattern table: at least five tokens, with
tokens 0 (zenith), 1 (azimuth) and 4 (total dB) all parsing as floats;
any other row is dropped (Python's `try: ... except ValueError: continue`). -/
def parseRow (line : String) : Option PatternPoint :=
  if 5 ≤ (pyTokens line).length then
    match pyFloat ((pyTokens line).getD 0 ""), pyFloat ((pyTokens line).getD 1 ""),
      pyFloat ((pyTokens line).getD 4 "") with
    | some zenith, some az, some total_db => some ⟨zenithToEl zenith, az, total_db⟩
    | _, _, _ => none
  else none

/-- Does `pat` occur as a contiguous run inside `s`?  Scans every suffix. -/
def startsWithSeq : List Char → List Char → Bool
  | [], _ => true
  | _ :: _, [] => false
  | p :: ps, c :: cs => c == p && startsWithSeq ps cs

/-- Substring test on character lists (model of Python's `in` on `str`). -/
def containsSeq (pat : List Char) : List Char → Bool
  | [] => startsWithSeq pat []
  | c :: cs => startsWithSeq pat (c :: cs) || containsSeq pat cs

/-- Does this line contain the `PATTERN DATA` section header? -/
def hasPatternData (line : String) : Bool :=
  containsSeq "PATTERN DATA".toList line.toList

/-- The line-scanning state machine of `parse_pattern`: `inTable` is the
`in_table` flag, `skip` the remaining header lines to drop. -/
def patternLoop : Bool → ℕ → List String → List PatternPoint
  | _, _, [] => []
  | false, k, line :: rest =>
    if hasPatternData line then patternLoop true 2 rest
    else patternLoop false k rest
  | true, k + 1, _ :: rest => patternLoop true k rest
  | true, 0, line :: rest =>
    match parseRow line with
    | some p => p :: patternLoop true 0 rest
    | none => patternLoop true 0 rest

/-- `parse_pattern`: extract pattern rows from pymininec output. -/
def parse_pattern (output : String) : List PatternPoint :=
  patternLoop false 0 (pyLines output)

/-- Declarative description of the lines `parse_pattern` feeds to `parseRow`:
everything after the first `PATTERN DATA` line with the two following header
lines dropped (empty when there is no header line). -/
def dataLines : List String → List String
  | [] => []
  | line :: rest => if hasPatternData line then rest.drop 2 else dataLines rest

/-- Characters admitted by the impedance regex's capture class `[-.\deE]`. -/
def isImpChar (c : Char) : Bool :=
  c == '-' || c == '.' || c.isDigit || c == 'e' || c == 'E'

/-- Strip a literal from the front of a character list. -/
def dropPre : List Char → List Char → Option (List Char)
  | [], s => some s
  | _ :: _, [] => none
  | p :: ps, c :: cs => if c = p then dropPre ps cs else none

/-- The literal head of the impedance pattern. -/
def impHeader : List Char := "IMPEDANCE = (".toList

/-- Try to match `IMPEDANCE = \( *([-.\deE]+) *, *([-.\deE]+) *J\)` at the
start of `s`, returning the two capture groups.  Because the capture class,
the space and the literals `,`/`J` are disjoint, the regex's greedy matching
is equivalent to this maximal-munch scan. -/
def matchAt (s : List Char) : Option (List Char × List Char) :=
  (dropPre impHeader s).bind fun s1 =>
    (dropPre [','] (((s1.dropWhile (fun c => c == ' ')).dropWhile isImpChar).dropWhile
        (fun c => c == ' '))).bind fun s5 =>
      if ((s1.dropWhile (fun c => c == ' ')).takeWhile isImpChar).isEmpty then none
      else
        (dropPre ['J', ')'] (((s5.dropWhile (fun c => c == ' ')).dropWhile isImpChar).dropWhile
            (fun c => c == ' '))).bind fun _ =>
          if ((s5.dropWhile (fun c => c == ' ')).takeWhile isImpChar).isEmpty then none
          else some ((s1.dropWhile (fun c => c == ' ')).takeWhile isImpChar,
                     (s5.dropWhile (fun c => c == ' ')).takeWhile isImpChar)

/-- Model of `re.search` for the impedance pattern: leftmost match wins. -/
def findImp : List Char → Option (List Char × List Char)
  | [] => none
  | c :: cs =>
    match matchAt (c :: cs) with
    | some r => some r
    | none => findImp cs

/-- `parse_impedance`: extract `(R, X)` from an `IMPEDANCE = ( R , X J)`
line.  No match yields `none`; a match whose capture groups are not valid
float literals raises `ValueError` (modelled as `.error`), exactly as
CPython's `float()` would inside the Python function. -/
def parse_impedance (output : String) : Except String (Option (ℚ × ℚ)) :=
  match findImp output.toList with
  | none => .ok none
  | some (g1, g2) =>
    match pyFloat (String.mk g1), pyFloat (String.mk g2) with
    | some R, some X => .ok (some (R, X))
    | _, _ => .error "ValueError: could not convert string to float"

/-- Wire directive for one element (`AntennaElement.to_wire_dict` composed
with the height offset applied in `to_pymininec_args`): the z-coordinates
are first formatted at six decimals, re-parsed, offset by the height, and
formatted again, exactly as the Python code does. -/
def wireArg (height_m : ℚ) (e : AntennaElement) : List String :=
  ["-w",
    intStr e.segments ++ "," ++ f6 e.x1 ++ "," ++ f6 e.y1 ++ "," ++ f6 (q6 e.z1 + height_m) ++
      "," ++ f6 e.x2 ++ "," ++ f6 e.y2 ++ "," ++ f6 (q6 e.z2 + height_m) ++ "," ++ f6 e.radius]

/-- `AntennaModel.to_pymininec_args`: one `-w` directive per element. -/
def to_pymininec_args (m : AntennaModel) (height_m : ℚ) : List String :=
  m.elements.flatMap (wireArg height_m)

/-- The complex-voltage argument string emitted for a feedpoint: the real
part alone when the imaginary part is negligible, otherwise `a+bj`/`a-bj`
with `%g` formatting of both parts. -/
def voltageString (v : ℚ × ℚ) : String :=
  if |v.2| < 1 / 10 ^ 12 then gFmt v.1
  else gFmt v.1 ++ (if 0 ≤ v.2 then "+" else "") ++ gFmt v.2 ++ "j"

/-- The excitation argument pair for one feedpoint: pulse index
`max(segment - 1, 1)`, wire tag `element_index + 1`. -/
def feedArg (fp : Feedpoint) : List String :=
  ["--excitation-pulse", intStr (max (fp.segment - 1) 1) ++ "," ++ intStr (fp.element_index + 1),
   "--excitation-voltage", voltageString fp.voltage]

/-- The excitation section of the command line: one pulse/voltage pair per
feedpoint, or the single legacy `excitation_pulse` argument (default
`"10,1"`) when the model has no feedpoints. -/
def feedArgs (m : AntennaModel) (excitation_pulse : String) : List String :=
  if m.feedpoints.isEmpty then ["--excitation-pulse", excitation_pulse]
  else m.feedpoints.flatMap feedArg

/-- The full pymininec argument vector assembled by `_run_pymininec`. -/
def run_pymininec_cmd (m : AntennaModel) (freq_mhz height_m : ℚ)
    (ground_opts : Option (List String)) (excitation_pulse : String)
    (pattern_opts : List (String × String)) (option : String) (ff_distance : ℤ) :
    List String :=
  ["pymininec", "-f", pyRepr freq_mhz]
    ++ to_pymininec_args m height_m
    ++ (match ground_opts with | some l => l | none => [])
    ++ feedArgs m excitation_pulse
    ++ ["--option", option]
    ++ (if option = "far-field-absolute" then ["--ff-distance", intStr ff_distance] else [])
    ++ pattern_opts.flatMap (fun kv => ["--" ++ kv.1, kv.2])

/-- Parsed results of one solver invocation (`_run_pymininec`'s dict,
without the raw output). -/
structure RunResult where
  impedance : Option (ℚ × ℚ)
  pattern : List PatternPoint
deriving DecidableEq, Repr

/-- `_run_pymininec`: build the command, run the solver oracle on it, and
parse impedance and pattern from its stdout.  A `ValueError` escaping
`parse_impedance` propagates. -/
def run_pymininec (solver : List String → String) (m : AntennaModel)
    (freq_mhz height_m : ℚ) (ground_opts : Option (List String))
    (excitation_pulse : String) (pattern_opts : List (String × String))
    (option : String) (ff_distance : ℤ) : Except String RunResult :=
  let out := solver (run_pymininec_cmd m freq_mhz height_m ground_opts
    excitation_pulse pattern_opts option ff_distance)
  match parse_impedance out with
  | .error e => .error e
  | .ok imp => .ok { impedance := imp, pattern := parse_pattern out }

instance {ε α : Type} [DecidableEq ε] [DecidableEq α] : DecidableEq (Except ε α)
  | .error e, .error e2 =>
    if h : e = e2 then isTrue (by rw [h]) else isFalse (fun hc => h (Except.error.inj hc))
  | .error _, .ok _ => isFalse (fun hc => Except.noConfusion hc)
  | .ok _, .error _ => isFalse (fun hc => Except.noConfusion hc)
  | .ok v, .ok v2 =>
    if h : v = v2 then isTrue (by rw [h]) else isFalse (fun hc => h (Except.ok.inj hc))

/-- `AntennaSimulator._round_step`'s sample count: `round(total / step)`
clamped below by 1. -/
def stepCount (step total : ℚ) : ℤ := max (pyRound (total / step)) 1

/-- `AntennaSimulator._round_step`: the effective step `total / n_steps`
where `n_steps` is the clamped nearest integer count. -/
def round_step (step total : ℚ) : ℚ := total / (stepCount step total : ℚ)

/-- The `theta` pattern option string built by `simulate_pattern`:
`"0,<effective el step>,<int(90 / effective el step) + 1>"`. -/
def thetaString (el_step : ℚ) : String :=
  "0," ++ pyRepr (round_step el_step 180) ++ "," ++
    intStr (pyInt (90 / round_step el_step 180) + 1)

/-- The command line of `simulate_pattern`'s azimuth-0 solver run. -/
def simCmd0 (m : AntennaModel) (freq_mhz height_m : ℚ)
    (ground_opts : Option (List String)) (el_step : ℚ) (ff_distance : ℤ) : List String :=
  run_pymininec_cmd m freq_mhz height_m ground_opts "10,1"
    [("theta", thetaString el_step), ("phi", "0,0,1")] "far-field" ff_distance

/-- The command line of `simulate_pattern`'s azimuth-180 solver run. -/
def simCmd180 (m : AntennaModel) (freq_mhz height_m : ℚ)
    (ground_opts : Option (List String)) (el_step : ℚ) (ff_distance : ℤ) : List String :=
  run_pymininec_cmd m freq_mhz height_m ground_opts "10,1"
    [("theta", thetaString el_step), ("phi", "180,0,1")] "far-field" ff_distance

/-- The elevation-sort order used on the merged cut (`sorted(key=el)`). -/
def elOrder (a b : PatternPoint) : Prop := a.el ≤ b.el

instance : DecidableRel elOrder := fun a b => inferInstanceAs (Decidable (a.el ≤ b.el))

/-- Merge the two hemisphere patterns: azimuth-0 points with elevation in
[0, 90] kept as-is, azimuth-180 points with elevation in [0, 90] mirrored to
`180 - el`, all re-tagged with azimuth 0.0, then stably sorted by elevation
(insertion sort models Python's stable `sorted`). -/
def mergePatterns (p0 p180 : List PatternPoint) : List PatternPoint :=
  List.insertionSort elOrder
    ((p0.filterMap fun p => if 0 ≤ p.el ∧ p.el ≤ 90 then some ⟨p.el, 0, p.gain⟩ else none)
      ++ (p180.filterMap fun p => if 0 ≤ p.el ∧ p.el ≤ 90 then some ⟨180 - p.el, 0, p.gain⟩ else none))

/-- Result of `AntennaSimulator.simulate_pattern`, extended with ghost
fields recording the two issued command lines and the effective
(post-rounding) step values the Python code computes into its locals. -/
structure SimResult where
  impedance : Option (ℚ × ℚ)
  pattern : List PatternPoint
  runs : List (List String)
  elStepEff : ℚ
  azStepEff : ℚ
deriving DecidableEq, Repr

/-- `AntennaSimulator.simulate_pattern`: round the steps, run the solver at
azimuth 0 and azimuth 180 over the zenith grid, merge the hemispheres into
one elevation-sorted cut at azimuth 0, and take the impedance from the
azimuth-0 run. -/
def simulate_pattern (solver : List String → String) (model : AntennaModel)
    (freq_mhz height_m : ℚ) (ground : String) (el_step az_step : ℚ)
    (ff_distance : ℤ) : Except String SimResult :=
  match get_ground_opts ground with
  | .error e => .error e
  | .ok ground_opts =>
    let c0 := simCmd0 model freq_mhz height_m ground_opts el_step ff_distance
    let c180 := simCmd180 model freq_mhz height_m ground_opts el_step ff_distance
    match run_pymininec solver model freq_mhz height_m ground_opts "10,1"
      [("theta", thetaString el_step), ("phi", "0,0,1")] "far-field" ff_distance with
    | .error e => .error e
    | .ok r0 =>
      match run_pymininec solver model freq_mhz height_m ground_opts "10,1"
        [("theta", thetaString el_step), ("phi", "180,0,1")] "far-field" ff_distance with
      | .error e => .error e
      | .ok r180 =>
        .ok { impedance := r0.impedance,
              pattern := mergePatterns r0.pattern r180.pattern,
              runs := [c0, c180],
              elStepEff := round_step el_step 180,
              azStepEff := round_step az_step 360 }

/-- Every character is a space (the regex's ` *` separator). -/
def allSpaces (l : List Char) : Prop := ∀ c ∈ l, c = ' '

/-- Every character belongs to the impedance capture class `[-.\deE]`. -/
def allImpChars (l : List Char) : Prop := ∀ c ∈ l, isImpChar c = true

/-- Declarative reading of one occurrence of the impedance pattern
`IMPEDANCE = \( *([-.\deE]+) *, *([-.\deE]+) *J\)` starting at the head of
`s`, with capture groups `g1` and `g2`.  Because the capture class, the
space, and the delimiters are pairwise disjoint, any such decomposition is
unique. -/
def MatchSegWith (s g1 g2 : List Char) : Prop :=
  ∃ s1 s2 s3 s4 rest,
    s = impHeader ++ (s1 ++ (g1 ++ (s2 ++ ',' :: (s3 ++ (g2 ++ (s4 ++ 'J' :: ')' :: rest)))))) ∧
    g1 ≠ [] ∧ g2 ≠ [] ∧ allImpChars g1 ∧ allImpChars g2 ∧
    allSpaces s1 ∧ allSpaces s2 ∧ allSpaces s3 ∧ allSpaces s4

/-- The text contains an occurrence of the impedance pattern somewhere
(what `re.search` looks for; the pattern cannot span lines since none of
its constituent characters is a newline). -/
def HasImpMatch (s : List Char) : Prop :=
  ∃ pre g1 g2 suf, s = pre ++ suf ∧ MatchSegWith suf g1 g2

instance : IsTotal PatternPoint elOrder := ⟨fun a b => le_total a.el b.el⟩

instance : IsTrans PatternPoint elOrder := ⟨fun _ _ _ hab hbc => le_trans hab hbc⟩

/-- A solver oracle that produces no output (every parse yields nothing). -/
def trivSolver : List String → String := fun _ => ""

/-- A model with no elements and no feedpoints. -/
def emptyModel : AntennaModel := ⟨[], []⟩

/-- Solver output containing one pattern row at zenith 0 (elevation 90). -/
def backPatternText : String := "PATTERN DATA\nX\nY\n0 180 0 0 5.5"

/-- A solver oracle that answers the azimuth-180 run (recognized by its
`phi` option value) with `backPatternText` and every other run with empty
output. -/
def backSolver : List String → String := fun cmd =>
  if cmd.contains "180,0,1" then backPatternText else ""

/-- The exact result of `simulate_pattern backSolver emptyModel 7 10 "free"
5 5 1000`: a single merged point at elevation 90 that originates from the
azimuth-180 run. -/
def backResult : SimResult :=
  { impedance := none,
    pattern := [⟨90, 0, 11/2⟩],
    runs := [["pymininec", "-f", "7.0", "--excitation-pulse", "10,1", "--option", "far-field",
              "--theta", "0,5.0,19", "--phi", "0,0,1"],
             ["pymininec", "-f", "7.0", "--excitation-pulse", "10,1", "--option", "far-field",
              "--theta", "0,5.0,19", "--phi", "180,0,1"]],
    elStepEff := 5,
    azStepEff := 5 }

/-- The exact result of `simulate_pattern trivSolver emptyModel 7 10 "free"
80 5 1000`: the requested elevation step 80 is replaced by 90. -/
def coarseResult : SimResult :=
  { impedance := none,
    pattern := [],
    runs := [["pymininec", "-f", "7.0", "--excitation-pulse", "10,1", "--option", "far-field",
              "--theta", "0,90.0,2", "--phi", "0,0,1"],
             ["pymininec", "-f", "7.0", "--excitation-pulse", "10,1", "--option", "far-field",
              "--theta", "0,90.0,2", "--phi", "180,0,1"]],
    elStepEff := 90,
    azStepEff := 5 }

/-- Solver output whose leftmost impedance match has non-numeric capture
groups, followed by a perfectly numeric impedance line. -/
def badImpedanceOut : String := "IMPEDANCE = ( e , e J)\nIMPEDANCE = ( 50 , 10 J)"

/-- A well-formed impedance line. -/
def goodImpedanceOut : String := "IMPEDANCE = ( 50.0 , -12.5 J)"

/-- Sample solver output with a leading noise line, the pattern header, two
column-title lines, one valid data row and one malformed row. -/
def sampleOut : String := "noise\nPATTERN DATA\ncolA\ncolB\n0 180 0 0 5.5\nbad row"

/-- The dipole model used as a concrete witness input. -/
def dipModel : AntennaModel := build_dipole_model 20 21 (1/1000)

/-- C8: for every positive frequency, `resonant_dipole_length` is exactly
`feet_to_meters (468 / f)`, that is `(468 / f) * 0.3048`. -/
theorem resonant_dipole_length_formula (f : ℚ) (_hf : 0 < f) :
    resonant_dipole_length f = feet_to_meters (468 / f) ∧
    resonant_dipole_length f = 468 / f * (3048 / 10000) := ⟨rfl, rfl⟩

theorem resonant_dipole_length_formula_witness :
    0 < (468 : ℚ) ∧ resonant_dipole_length 468 = feet_to_meters (468 / 468) :=
  ⟨by norm_num, (resonant_dipole_length_formula 468 (by norm_num)).1⟩

/-- C9: `build_dipole_model` produces exactly one element with endpoints
`(0, -L/2, 0)` and `(0, L/2, 0)` — `L` apart along the y-axis, centered at
the origin — with the requested segments and radius, and exactly one
feedpoint on element 0 at segment `(segments + 1) // 2` with unit voltage. -/
theorem build_dipole_model_geometry (L : ℚ) (segments : ℤ) (radius : ℚ) :
    ∃ e : AntennaElement,
      (build_dipole_model L segments radius).elements = [e] ∧
      e.x1 = 0 ∧ e.z1 = 0 ∧ e.x2 = 0 ∧ e.z2 = 0 ∧
      e.y1 = -(L / 2) ∧ e.y2 = L / 2 ∧
      e.y2 - e.y1 = L ∧ e.y1 + e.y2 = 0 ∧
      e.segments = segments ∧ e.radius = radius ∧
      (build_dipole_model L segments radius).feedpoints =
        [⟨0, (segments + 1).fdiv 2, (1, 0)⟩] := by
  refine ⟨_, rfl, rfl, rfl, rfl, rfl, rfl, rfl, by ring, by ring, rfl, rfl, rfl⟩

/-- C3: the elevation recorded by `parse_pattern` for a parsed zenith `z` is
`90 - z` when that is nonnegative and `180 + (90 - z)` otherwise, placing
far-side below-horizon angles in the 90-180 range; every parsed point's
elevation arises this way from the row's first token. -/
theorem parse_pattern_elevation_convention (z : ℚ) :
    (0 ≤ 90 - z → zenithToEl z = 90 - z) ∧
    (90 - z < 0 → zenithToEl z = 180 + (90 - z)) ∧
    (90 < z → z ≤ 180 → 90 ≤ zenithToEl z ∧ zenithToEl z < 180) ∧
    (∀ line p, parseRow line = some p →
      ∃ zen, pyFloat ((pyTokens line).getD 0 "") = some zen ∧ p.el = zenithToEl zen) := by
  refine ⟨?_, ?_, ?_, ?_⟩
  · intro h; simp only [zenithToEl]; rw [if_pos h]
  · intro h; simp only [zenithToEl]; rw [if_neg (not_le.mpr h)]
  · intro h1 h2
    have hneg : ¬ (0 ≤ 90 - z) := by linarith
    simp only [zenithToEl]; rw [if_neg hneg]
    constructor <;> linarith
  · intro line p h
    unfold parseRow at h
    by_cases h5 : 5 ≤ (pyTokens line).length
    · rw [if_pos h5] at h
      rcases h0 : pyFloat ((pyTokens line).getD 0 "") with _ | z0 <;>
        rcases h1 : pyFloat ((pyTokens line).getD 1 "") with _ | az0 <;>
        rcases h4 : pyFloat ((pyTokens line).getD 4 "") with _ | g0 <;>
        rw [h0, h1, h4] at h <;> simp only [] at h
      · exact absurd h (by simp)
      · exact absurd h (by simp)
      · exact absurd h (by simp)
      · exact absurd h (by simp)
      · exact absurd h (by simp)
      · exact absurd h (by simp)
      · exact absurd h (by simp)
      · obtain rfl : (⟨zenithToEl z0, az0, g0⟩ : PatternPoint) = p := by
          injection h
        exact ⟨z0, rfl, rfl⟩
    · rw [if_neg h5] at h
      exact absurd h (by simp)

theorem parse_pattern_elevation_convention_witness :
    zenithToEl 100 = 180 + (90 - 100) ∧ zenithToEl 30 = 90 - 30 :=
  ⟨(parse_pattern_elevation_convention 100).2.1 (by norm_num),
   (parse_pattern_elevation_convention 30).1 (by norm_num)⟩

lemma stepCount_5_180 : stepCount 5 180 = 36 := by
  norm_num [stepCount, pyRound]

lemma round_step_5_180 : round_step 5 180 = 5 := by
  norm_num [round_step, stepCount_5_180]

lemma stepCount_80_180 : stepCount 80 180 = 2 := by
  norm_num [stepCount, pyRound]

lemma round_step_80_180 : round_step 80 180 = 90 := by
  norm_num [round_step, stepCount_80_180]

lemma round_step_5_360 : round_step 5 360 = 5 := by
  norm_num [round_step, stepCount, pyRound]

lemma pyRepr_5 : pyRepr 5 = "5.0" := by
  norm_num [pyRepr]
  decide

lemma pyRepr_90 : pyRepr 90 = "90.0" := by
  norm_num [pyRepr]
  decide

lemma pyRepr_7 : pyRepr 7 = "7.0" := by
  norm_num [pyRepr]
  decide

lemma pyInt_18 : pyInt (90 / round_step 5 180) = 18 := by
  norm_num [pyInt, round_step_5_180]

lemma thetaString_5 : thetaString 5 = "0,5.0,19" := by
  rw [thetaString, round_step_5_180, pyRepr_5]
  norm_num [pyInt, round_step_5_180]
  decide

lemma thetaString_80 : thetaString 80 = "0,90.0,2" := by
  rw [thetaString, round_step_80_180, pyRepr_90]
  norm_num [pyInt, round_step_80_180]
  decide

lemma pyFloat_tok0 : pyFloat "0" = some 0 := by
  have h : pyFloat "0" = some ((digitsToNat ['0'] : ℚ) + (digitsToNat [] : ℚ) / 10 ^ (0 : ℕ)) := rfl
  have d0 : digitsToNat ['0'] = 0 := by decide
  have dn : digitsToNat [] = 0 := by decide
  rw [h, d0, dn]; norm_num

lemma pyFloat_tok180 : pyFloat "180" = some 180 := by
  have h : pyFloat "180" =
      some ((digitsToNat ['1', '8', '0'] : ℚ) + (digitsToNat [] : ℚ) / 10 ^ (0 : ℕ)) := rfl
  have d0 : digitsToNat ['1', '8', '0'] = 180 := by decide
  have dn : digitsToNat [] = 0 := by decide
  rw [h, d0, dn]; norm_num

lemma pyFloat_tok55 : pyFloat "5.5" = some (11 / 2) := by
  have h : pyFloat "5.5" =
      some ((digitsToNat ['5'] : ℚ) + (digitsToNat ['5'] : ℚ) / 10 ^ (1 : ℕ)) := rfl
  have d5 : digitsToNat ['5'] = 5 := by decide
  rw [h, d5]; norm_num

lemma parseRow_backRow : parseRow "0 180 0 0 5.5" = some ⟨90, 180, 11 / 2⟩ := by
  have ht : pyTokens "0 180 0 0 5.5" = ["0", "180", "0", "0", "5.5"] := by decide
  rw [parseRow, ht]
  simp [pyFloat_tok0, pyFloat_tok180, pyFloat_tok55]
  norm_num [zenithToEl]

lemma parse_pattern_backText : parse_pattern backPatternText = [⟨90, 180, 11 / 2⟩] := by
  have hl : pyLines backPatternText = ["PATTERN DATA", "X", "Y", "0 180 0 0 5.5"] := by decide
  rw [parse_pattern, hl]
  have hh : hasPatternData "PATTERN DATA" = true := by decide
  simp [patternLoop, hh, parseRow_backRow]

lemma cmd0_back_eval :
    run_pymininec_cmd emptyModel 7 10 none "10,1" [("theta", thetaString 5), ("phi", "0,0,1")]
      "far-field" 1000 =
    ["pymininec", "-f", "7.0", "--excitation-pulse", "10,1", "--option", "far-field",
     "--theta", "0,5.0,19", "--phi", "0,0,1"] := by
  rw [run_pymininec_cmd, pyRepr_7, thetaString_5]
  decide

lemma cmd180_back_eval :
    run_pymininec_cmd emptyModel 7 10 none "10,1" [("theta", thetaString 5), ("phi", "180,0,1")]
      "far-field" 1000 =
    ["pymininec", "-f", "7.0", "--excitation-pulse", "10,1", "--option", "far-field",
     "--theta", "0,5.0,19", "--phi", "180,0,1"] := by
  rw [run_pymininec_cmd, pyRepr_7, thetaString_5]
  decide

lemma backRun_eq :
    simulate_pattern backSolver emptyModel 7 10 "free" 5 5 1000 = .ok backResult := by
  have hg : get_ground_opts "free" = .ok none := by decide
  rw [simulate_pattern, hg]
  simp only [run_pymininec, cmd0_back_eval, cmd180_back_eval]
  have hs0 : backSolver ["pymininec", "-f", "7.0", "--excitation-pulse", "10,1", "--option",
      "far-field", "--theta", "0,5.0,19", "--phi", "0,0,1"] = "" := by decide
  have hs180 : backSolver ["pymininec", "-f", "7.0", "--excitation-pulse", "10,1", "--option",
      "far-field", "--theta", "0,5.0,19", "--phi", "180,0,1"] = backPatternText := by decide
  rw [hs0, hs180]
  have hie : parse_impedance "" = .ok none := by decide
  have hib : parse_impedance backPatternText = .ok none := by decide
  rw [hie, hib]
  have hpe : parse_pattern "" = [] := by decide
  rw [hpe, parse_pattern_backText]
  simp only [simCmd0, simCmd180, cmd0_back_eval, cmd180_back_eval, backResult]
  simp [mergePatterns, round_step_5_180, round_step_5_360]
  norm_num

lemma cmd0_coarse_eval :
    run_pymininec_cmd emptyModel 7 10 none "10,1" [("theta", thetaString 80), ("phi", "0,0,1")]
      "far-field" 1000 =
    ["pymininec", "-f", "7.0", "--excitation-pulse", "10,1", "--option", "far-field",
     "--theta", "0,90.0,2", "--phi", "0,0,1"] := by
  rw [run_pymininec_cmd, pyRepr_7, thetaString_80]
  decide

lemma cmd180_coarse_eval :
    run_pymininec_cmd emptyModel 7 10 none "10,1" [("theta", thetaString 80), ("phi", "180,0,1")]
      "far-field" 1000 =
    ["pymininec", "-f", "7.0", "--excitation-pulse", "10,1", "--option", "far-field",
     "--theta", "0,90.0,2", "--phi", "180,0,1"] := by
  rw [run_pymininec_cmd, pyRepr_7, thetaString_80]
  decide

lemma coarseRun_eq :
    simulate_pattern trivSolver emptyModel 7 10 "free" 80 5 1000 = .ok coarseResult := by
  have hg : get_ground_opts "free" = .ok none := by decide
  rw [simulate_pattern, hg]
  simp only [run_pymininec, cmd0_coarse_eval, cmd180_coarse_eval]
  have hie : parse_impedance "" = .ok none := by decide
  have hpe : parse_pattern "" = [] := by decide
  simp only [trivSolver, hie, hpe]
  simp only [simCmd0, simCmd180, cmd0_coarse_eval, cmd180_coarse_eval, coarseResult]
  simp [mergePatterns, round_step_80_180, round_step_5_360]

lemma sorted_mergePatterns (p0 p180 : List PatternPoint) :
    List.Sorted elOrder (mergePatterns p0 p180) :=
  List.sorted_insertionSort elOrder _

lemma mem_mergePatterns {p : PatternPoint} {p0 p180 : List PatternPoint} :
    p ∈ mergePatterns p0 p180 ↔
      ((∃ q ∈ p0, 0 ≤ q.el ∧ q.el ≤ 90 ∧ p = ⟨q.el, 0, q.gain⟩) ∨
       (∃ q ∈ p180, 0 ≤ q.el ∧ q.el ≤ 90 ∧ p = ⟨180 - q.el, 0, q.gain⟩)) := by
  unfold mergePatterns
  rw [(List.perm_insertionSort _ _).mem_iff, List.mem_append]
  simp only [List.mem_filterMap]
  constructor
  · rintro (⟨q, hq, hf⟩ | ⟨q, hq, hf⟩) <;> rw [Option.ite_none_right_eq_some] at hf
    · exact Or.inl ⟨q, hq, hf.1.1, hf.1.2, (Option.some.inj hf.2).symm⟩
    · exact Or.inr ⟨q, hq, hf.1.1, hf.1.2, (Option.some.inj hf.2).symm⟩
  · rintro (⟨q, hq, h1, h2, h3⟩ | ⟨q, hq, h1, h2, h3⟩)
    · exact Or.inl ⟨q, hq, by rw [if_pos ⟨h1, h2⟩, h3]⟩
    · exact Or.inr ⟨q, hq, by rw [if_pos ⟨h1, h2⟩, h3]⟩

lemma run_pymininec_ok_elim {solver m freq hm go ep po opt ffd rr}
    (h : run_pymininec solver m freq hm go ep po opt ffd = .ok rr) :
    parse_impedance (solver (run_pymininec_cmd m freq hm go ep po opt ffd)) = .ok rr.impedance ∧
    rr.pattern = parse_pattern (solver (run_pymininec_cmd m freq hm go ep po opt ffd)) := by
  rw [run_pymininec] at h
  cases hi : parse_impedance (solver (run_pymininec_cmd m freq hm go ep po opt ffd)) with
  | error e => rw [hi] at h; simp at h
  | ok imp =>
    rw [hi] at h
    simp only [Except.ok.injEq] at h
    subst h
    exact ⟨rfl, rfl⟩

lemma simulate_pattern_ok_elim {solver model freq hm ground el az ffd r go}
    (hg : get_ground_opts ground = .ok go)
    (hr : simulate_pattern solver model freq hm ground el az ffd = .ok r) :
    parse_impedance (solver (simCmd0 model freq hm go el ffd)) = .ok r.impedance ∧
    (∃ i180, parse_impedance (solver (simCmd180 model freq hm go el ffd)) = .ok i180) ∧
    r.pattern = mergePatterns (parse_pattern (solver (simCmd0 model freq hm go el ffd)))
                              (parse_pattern (solver (simCmd180 model freq hm go el ffd))) ∧
    r.runs = [simCmd0 model freq hm go el ffd, simCmd180 model freq hm go el ffd] ∧
    r.elStepEff = round_step el 180 ∧
    r.azStepEff = round_step az 360 := by
  rw [simulate_pattern, hg] at hr
  dsimp only at hr
  cases hrun0 : run_pymininec solver model freq hm go "10,1"
      [("theta", thetaString el), ("phi", "0,0,1")] "far-field" ffd with
  | error e => rw [hrun0] at hr; simp at hr
  | ok r0 =>
    rw [hrun0] at hr
    cases hrun180 : run_pymininec solver model freq hm go "10,1"
        [("theta", thetaString el), ("phi", "180,0,1")] "far-field" ffd with
    | error e => rw [hrun180] at hr; simp at hr
    | ok r180 =>
      rw [hrun180] at hr
      simp only [Except.ok.injEq] at hr
      subst hr
      obtain ⟨hi0, hp0⟩ := run_pymininec_ok_elim hrun0
      obtain ⟨hi180, hp180⟩ := run_pymininec_ok_elim hrun180
      refine ⟨hi0, ⟨r180.impedance, hi180⟩, ?_, rfl, rfl, rfl⟩
      rw [hp0, hp180]
      rfl

/-- C1 (amended): `simulate_pattern` replaces each step by `total / n` where
`n = max(round(total/step), 1)` is the nearest integer count of samples, so
the effective step exactly tiles the range (`n` steps cover 180 resp. 360
exactly), but it is the nearest count, not a rounding-down of the step: the
effective step can exceed the requested one. -/
theorem simulate_pattern_step_rounding (el_step az_step : ℚ)
    (_hel : 0 < el_step) (_haz : 0 < az_step) :
    1 ≤ stepCount el_step 180 ∧
    round_step el_step 180 * (stepCount el_step 180 : ℚ) = 180 ∧
    1 ≤ stepCount az_step 360 ∧
    round_step az_step 360 * (stepCount az_step 360 : ℚ) = 360 ∧
    (∀ solver model freq hm ground ffd r go,
      get_ground_opts ground = .ok go →
      simulate_pattern solver model freq hm ground el_step az_step ffd = .ok r →
      r.elStepEff = round_step el_step 180 ∧ r.azStepEff = round_step az_step 360) := by
  have h1 : 1 ≤ stepCount el_step 180 := le_max_right _ _
  have h2 : 1 ≤ stepCount az_step 360 := le_max_right _ _
  have ne1 : (stepCount el_step 180 : ℚ) ≠ 0 := by
    exact_mod_cast ne_of_gt (lt_of_lt_of_le Int.zero_lt_one h1)
  have ne2 : (stepCount az_step 360 : ℚ) ≠ 0 := by
    exact_mod_cast ne_of_gt (lt_of_lt_of_le Int.zero_lt_one h2)
  refine ⟨h1, ?_, h2, ?_, ?_⟩
  · rw [round_step]; exact div_mul_cancel₀ 180 ne1
  · rw [round_step]; exact div_mul_cancel₀ 360 ne2
  · intro solver model freq hm ground ffd r go hg hr
    obtain ⟨-, -, -, -, he, ha⟩ := simulate_pattern_ok_elim hg hr
    exact ⟨he, ha⟩

/-- C1 counterexample: with requested `el_step = 80`, `simulate_pattern`
uses the effective elevation step 90, which is strictly larger than the
requested step, refuting the rounds-down reading. -/
theorem round_step_counterexample :
    simulate_pattern trivSolver emptyModel 7 10 "free" 80 5 1000 = .ok coarseResult ∧
    coarseResult.elStepEff = 90 ∧ ¬ (coarseResult.elStepEff ≤ 80) := by
  refine ⟨coarseRun_eq, rfl, ?_⟩
  norm_num [coarseResult]

theorem simulate_pattern_step_rounding_witness :
    (1 ≤ stepCount 80 180 ∧ round_step 80 180 * (stepCount 80 180 : ℚ) = 180) ∧
    coarseResult.elStepEff = round_step 80 180 ∧ coarseResult.azStepEff = round_step 5 360 := by
  have h := simulate_pattern_step_rounding 80 5 (by norm_num) (by norm_num)
  exact ⟨⟨h.1, h.2.1⟩,
    h.2.2.2.2 trivSolver emptyModel 7 10 "free" 1000 coarseResult none (by decide) coarseRun_eq⟩

/-- C10: every point in the merged elevation cut returned by
`simulate_pattern` has azimuth exactly 0, including the points mirrored
from the azimuth-180 run. -/
theorem simulate_pattern_azimuth_zero (solver : List String → String)
    (model : AntennaModel) (freq hm : ℚ) (ground : String) (el az : ℚ) (ffd : ℤ)
    (r : SimResult) (go : Option (List String))
    (hg : get_ground_opts ground = .ok go)
    (hr : simulate_pattern solver model freq hm ground el az ffd = .ok r) :
    ∀ p ∈ r.pattern, p.az = 0 := by
  obtain ⟨-, -, hpat, -, -, -⟩ := simulate_pattern_ok_elim hg hr
  intro p hp
  rw [hpat] at hp
  rcases mem_mergePatterns.mp hp with ⟨q, -, -, -, rfl⟩ | ⟨q, -, -, -, rfl⟩ <;> rfl

theorem simulate_pattern_azimuth_zero_witness :
    (⟨90, 0, 11/2⟩ : PatternPoint) ∈ backResult.pattern ∧
    PatternPoint.az ⟨90, 0, 11/2⟩ = 0 := by
  have hmem : (⟨90, 0, 11/2⟩ : PatternPoint) ∈ backResult.pattern := by
    simp [backResult]
  exact ⟨hmem, simulate_pattern_azimuth_zero backSolver emptyModel 7 10 "free" 5 5 1000
    backResult none (by decide) backRun_eq _ hmem⟩

lemma simCmds_shared_base (m : AntennaModel) (freq hm : ℚ) (go : Option (List String))
    (el : ℚ) (ffd : ℤ) :
    ∃ base, simCmd0 m freq hm go el ffd =
        base ++ ["--theta", thetaString el, "--phi", "0,0,1"] ∧
      simCmd180 m freq hm go el ffd =
        base ++ ["--theta", thetaString el, "--phi", "180,0,1"] := by
  have ht : ("--" ++ "theta" : String) = "--theta" := rfl
  have hp : ("--" ++ "phi" : String) = "--phi" := rfl
  cases go with
  | none =>
    refine ⟨["pymininec", "-f", pyRepr freq] ++ to_pymininec_args m hm ++
      feedArgs m "10,1" ++ ["--option", "far-field"], ?_, ?_⟩ <;>
      simp [simCmd0, simCmd180, run_pymininec_cmd, ht, hp]
  | some l =>
    refine ⟨["pymininec", "-f", pyRepr freq] ++ to_pymininec_args m hm ++ l ++
      feedArgs m "10,1" ++ ["--option", "far-field"], ?_, ?_⟩ <;>
      simp [simCmd0, simCmd180, run_pymininec_cmd, ht, hp]

/-- C2 (amended): `simulate_pattern` issues exactly the two solver runs at
azimuth 0 and azimuth 180 with a shared zenith grid starting at 0; the
merged list is sorted by elevation and the impedance is parsed from the
azimuth-0 run; every merged point with elevation strictly below 90 comes
from the azimuth-0 run, every point strictly above 90 is an azimuth-180
point mirrored to `180 - el`, and a point at exactly 90 may originate from
either run (both runs contribute the zenith-0 sample there). -/
theorem simulate_pattern_merge_spec (solver : List String → String)
    (model : AntennaModel) (freq hm : ℚ) (ground : String) (el az : ℚ) (ffd : ℤ)
    (r : SimResult) (go : Option (List String))
    (hg : get_ground_opts ground = .ok go)
    (hr : simulate_pattern solver model freq hm ground el az ffd = .ok r) :
    r.runs = [simCmd0 model freq hm go el ffd, simCmd180 model freq hm go el ffd] ∧
    (∃ base, simCmd0 model freq hm go el ffd =
        base ++ ["--theta", thetaString el, "--phi", "0,0,1"] ∧
      simCmd180 model freq hm go el ffd =
        base ++ ["--theta", thetaString el, "--phi", "180,0,1"]) ∧
    parse_impedance (solver (simCmd0 model freq hm go el ffd)) = .ok r.impedance ∧
    List.Sorted elOrder r.pattern ∧
    (∀ p ∈ r.pattern,
      (p.el < 90 → ∃ q ∈ parse_pattern (solver (simCmd0 model freq hm go el ffd)),
        0 ≤ q.el ∧ q.el ≤ 90 ∧ p = ⟨q.el, 0, q.gain⟩) ∧
      (90 < p.el → ∃ q ∈ parse_pattern (solver (simCmd180 model freq hm go el ffd)),
        0 ≤ q.el ∧ q.el ≤ 90 ∧ p = ⟨180 - q.el, 0, q.gain⟩) ∧
      (p.el = 90 →
        (∃ q ∈ parse_pattern (solver (simCmd0 model freq hm go el ffd)),
          q.el = 90 ∧ p = ⟨90, 0, q.gain⟩) ∨
        (∃ q ∈ parse_pattern (solver (simCmd180 model freq hm go el ffd)),
          q.el = 90 ∧ p = ⟨90, 0, q.gain⟩))) := by
  obtain ⟨hi, _, hpat, hruns, _, _⟩ := simulate_pattern_ok_elim hg hr
  refine ⟨hruns, simCmds_shared_base model freq hm go el ffd, hi, ?_, ?_⟩
  · rw [hpat]; exact sorted_mergePatterns _ _
  · intro p hp
    rw [hpat] at hp
    have hm' := mem_mergePatterns.mp hp
    refine ⟨?_, ?_, ?_⟩
    · intro hlt
      rcases hm' with ⟨q, hq, h1, h2, rfl⟩ | ⟨q, hq, h1, h2, rfl⟩
      · exact ⟨q, hq, h1, h2, rfl⟩
      · exfalso
        have : (180 : ℚ) - q.el < 90 := hlt
        linarith
    · intro hgt
      rcases hm' with ⟨q, hq, h1, h2, rfl⟩ | ⟨q, hq, h1, h2, rfl⟩
      · exfalso
        have : (90 : ℚ) < q.el := hgt
        linarith
      · exact ⟨q, hq, h1, h2, rfl⟩
    · intro heq
      rcases hm' with ⟨q, hq, h1, h2, rfl⟩ | ⟨q, hq, h1, h2, rfl⟩
      · have hq90 : q.el = 90 := heq
        exact Or.inl ⟨q, hq, hq90, by rw [hq90]⟩
      · have hq90 : q.el = 90 := by
          have : (180 : ℚ) - q.el = 90 := heq
          linarith
        refine Or.inr ⟨q, hq, hq90, ?_⟩
        have : (180 : ℚ) - q.el = 90 := heq
        rw [this]

/-- C2 counterexample: with a solver whose azimuth-0 run yields no pattern
rows and whose azimuth-180 run reports a zenith-0 row, the merged cut
contains a point at elevation 90 (inside [0, 90]) that does not come from
the azimuth-0 run. -/
theorem simulate_pattern_merge_counterexample :
    simulate_pattern backSolver emptyModel 7 10 "free" 5 5 1000 = .ok backResult ∧
    ¬ (∀ p ∈ backResult.pattern, 0 ≤ p.el → p.el ≤ 90 →
        ∃ q ∈ parse_pattern (backSolver (simCmd0 emptyModel 7 10 none 5 1000)),
          p.el = q.el ∧ p.gain = q.gain) := by
  refine ⟨backRun_eq, ?_⟩
  intro hall
  have hmem : (⟨90, 0, 11/2⟩ : PatternPoint) ∈ backResult.pattern := by simp [backResult]
  have h := hall _ hmem (by norm_num) (by norm_num)
  have hc0 : simCmd0 emptyModel 7 10 none 5 1000 =
      ["pymininec", "-f", "7.0", "--excitation-pulse", "10,1", "--option", "far-field",
       "--theta", "0,5.0,19", "--phi", "0,0,1"] := cmd0_back_eval
  rw [hc0] at h
  have hs : backSolver ["pymininec", "-f", "7.0", "--excitation-pulse", "10,1", "--option",
      "far-field", "--theta", "0,5.0,19", "--phi", "0,0,1"] = "" := by decide
  rw [hs] at h
  have hp : parse_pattern "" = [] := by decide
  rw [hp] at h
  simp at h

theorem simulate_pattern_merge_spec_witness :
    List.Sorted elOrder backResult.pattern ∧
    parse_impedance (backSolver (simCmd0 emptyModel 7 10 none 5 1000)) =
      .ok backResult.impedance := by
  have h := simulate_pattern_merge_spec backSolver emptyModel 7 10 "free" 5 5 1000
    backResult none (by decide) backRun_eq
  exact ⟨h.2.2.2.1, h.2.2.1⟩

/-- C7: `get_ground_opts` maps `free` to no ground arguments at all (the
medium argument is omitted from the command line entirely), maps `poor`,
`average` and `good` to their fixed medium arguments, and rejects every
other (lowercased) ground string with a descriptive `ValueError` raised at
configuration time — `simulate_pattern` then fails identically for every
solver oracle, before any solver invocation can depend on it. -/
theorem get_ground_opts_spec (ground : String) :
    (pyLower ground ∉ (["free", "poor", "average", "good"] : List String) →
      get_ground_opts ground = .error ("Unknown ground type: " ++ pyLower ground) ∧
      (∀ solver model freq hm el az ffd,
        simulate_pattern solver model freq hm ground el az ffd =
          .error ("Unknown ground type: " ++ pyLower ground)) ∧
      (∀ solver solver2 model freq hm el az ffd,
        simulate_pattern solver model freq hm ground el az ffd =
          simulate_pattern solver2 model freq hm ground el az ffd)) ∧
    get_ground_opts "free" = .ok none ∧
    get_ground_opts "poor" = .ok (some ["--medium=5,0.001,0"]) ∧
    get_ground_opts "average" = .ok (some ["--medium=13,0.005,0"]) ∧
    get_ground_opts "good" = .ok (some ["--medium=20,0.03,0"]) ∧
    (∀ m freq hm ep po opt ffd,
      run_pymininec_cmd m freq hm none ep po opt ffd =
        ["pymininec", "-f", pyRepr freq] ++ to_pymininec_args m hm ++ feedArgs m ep ++
          ["--option", opt] ++
          (if opt = "far-field-absolute" then ["--ff-distance", intStr ffd] else []) ++
          po.flatMap (fun kv => ["--" ++ kv.1, kv.2])) := by
  refine ⟨?_, by decide, by decide, by decide, by decide, ?_⟩
  · intro hno
    simp only [List.mem_cons, List.not_mem_nil, or_false, not_or] at hno
    obtain ⟨h1, h2, h3, h4⟩ := hno
    have herr : get_ground_opts ground =
        .error ("Unknown ground type: " ++ pyLower ground) := by
      rw [get_ground_opts]
      simp only [if_neg h1, if_neg h2, if_neg h3, if_neg h4]
    refine ⟨herr, ?_, ?_⟩
    · intro solver model freq hm el az ffd
      rw [simulate_pattern, herr]
    · intro solver solver2 model freq hm el az ffd
      rw [simulate_pattern, herr, simulate_pattern, herr]
  · intro m freq hm ep po opt ffd
    simp [run_pymininec_cmd]

theorem get_ground_opts_spec_witness :
    pyLower "dirt" ∉ (["free", "poor", "average", "good"] : List String) ∧
    get_ground_opts "dirt" = .error ("Unknown ground type: " ++ pyLower "dirt") ∧
    simulate_pattern trivSolver emptyModel 7 10 "dirt" 5 5 1000 =
      .error ("Unknown ground type: " ++ pyLower "dirt") := by
  have h := (get_ground_opts_spec "dirt").1 (by decide)
  exact ⟨by decide, h.1, h.2.1 trivSolver emptyModel 7 10 5 5 1000⟩

lemma feedArg_length (fp : Feedpoint) : (feedArg fp).length = 4 := rfl

lemma flatMap_feedArg_length (l : List Feedpoint) :
    (l.flatMap feedArg).length = 4 * l.length := by
  induction l with
  | nil => simp
  | cons fp rest ih => simp [List.flatMap_cons, ih, feedArg_length]; ring

lemma flatMap_feedArg_drop (l : List Feedpoint) :
    ∀ i, i < l.length →
      (l.flatMap feedArg).drop (4 * i) =
        feedArg (l.getD i default) ++ (l.drop (i + 1)).flatMap feedArg := by
  induction l with
  | nil => intro i hi; simp at hi
  | cons fp rest ih =>
    intro i hi
    cases i with
    | zero => simp [List.flatMap_cons]
    | succ j =>
      have h4 : 4 * (j + 1) = (feedArg fp).length + 4 * j := by
        rw [feedArg_length]; ring
      rw [List.flatMap_cons, h4, List.drop_append, ih j (by simpa using hi)]
      simp

/-- C6: when a model has feedpoints, the excitation section of the command
line is exactly one `--excitation-pulse` / `--excitation-voltage` pair per
feedpoint in order, the pulse argument being `max(segment - 1, 1)` paired
with wire tag `element_index + 1`; with no feedpoints it is the single
legacy default pulse argument. -/
theorem feed_serialization (m : AntennaModel) (ep : String) :
    (m.feedpoints = [] → feedArgs m ep = ["--excitation-pulse", ep]) ∧
    (m.feedpoints ≠ [] →
      (feedArgs m ep).length = 4 * m.feedpoints.length ∧
      ∀ i, i < m.feedpoints.length →
        ((feedArgs m ep).drop (4 * i)).take 4 =
          ["--excitation-pulse",
            intStr (max ((m.feedpoints.getD i default).segment - 1) 1) ++ "," ++
              intStr ((m.feedpoints.getD i default).element_index + 1),
           "--excitation-voltage",
            voltageString (m.feedpoints.getD i default).voltage]) := by
  constructor
  · intro h
    rw [feedArgs, if_pos (by simp [h])]
  · intro h
    have hne : m.feedpoints.isEmpty = false := by
      cases hfp : m.feedpoints with
      | nil => exact absurd hfp h
      | cons a l => rfl
    rw [feedArgs, if_neg (by simp [hne])]
    refine ⟨flatMap_feedArg_length _, ?_⟩
    intro i hi
    rw [flatMap_feedArg_drop m.feedpoints i hi]
    rw [List.take_append_of_le_length (by rw [feedArg_length])]
    rfl

theorem feed_serialization_witness :
    dipModel.feedpoints ≠ [] ∧
    ((feedArgs dipModel "10,1").drop (4 * 0)).take 4 =
      ["--excitation-pulse", "10,1", "--excitation-voltage", "1"] := by
  have hdiv : ((21 : ℤ) + 1).fdiv 2 = 11 := by decide
  have hfp : dipModel.feedpoints.getD 0 default = ⟨0, 11, (1, 0)⟩ := by
    simp [dipModel, build_dipole_model, hdiv]
  have hne : dipModel.feedpoints ≠ [] := by
    simp [dipModel, build_dipole_model]
  have h := ((feed_serialization dipModel "10,1").2 hne).2 0
    (by simp [dipModel, build_dipole_model])
  rw [hfp] at h
  refine ⟨hne, ?_⟩
  rw [h]
  have hv : voltageString (1, 0) = "1" := by
    simp only [voltageString, gFmt]
    norm_num
    decide
  rw [hv]
  decide

lemma patternLoop_true_eq (ls : List String) :
    ∀ k, patternLoop true k ls = (ls.drop k).filterMap parseRow := by
  induction ls with
  | nil => intro k; cases k <;> simp [patternLoop]
  | cons l rest ih =>
    intro k
    cases k with
    | zero =>
      rw [patternLoop]
      cases hp : parseRow l with
      | none => simp [hp, ih 0]
      | some p => simp [hp, ih 0]
    | succ j =>
      rw [patternLoop, List.drop_succ_cons, ih j]

lemma patternLoop_false_eq (ls : List String) :
    ∀ k, patternLoop false k ls = (dataLines ls).filterMap parseRow := by
  induction ls with
  | nil => intro k; simp [patternLoop, dataLines]
  | cons l rest ih =>
    intro k
    rw [patternLoop, dataLines]
    by_cases h : hasPatternData l
    · rw [if_pos h, if_pos h, patternLoop_true_eq]
    · rw [if_neg h, if_neg h, ih k]

lemma parse_pattern_eq (out : String) :
    parse_pattern out = (dataLines (pyLines out)).filterMap parseRow :=
  patternLoop_false_eq _ 0

lemma dataLines_of_first_header (pre : List String) (hdr : String) (post : List String)
    (hpre : ∀ l ∈ pre, hasPatternData l = false) (hh : hasPatternData hdr = true) :
    dataLines (pre ++ hdr :: post) = post.drop 2 := by
  induction pre with
  | nil => simp [dataLines, hh]
  | cons l rest ih =>
    rw [List.cons_append, dataLines, if_neg (by simp [hpre l (by simp)]),
      ih (fun x hx => hpre x (by simp [hx]))]

lemma dataLines_of_no_header (ls : List String)
    (h : ∀ l ∈ ls, hasPatternData l = false) : dataLines ls = [] := by
  induction ls with
  | nil => rfl
  | cons l rest ih =>
    rw [dataLines, if_neg (by simp [h l (by simp)]), ih (fun x hx => h x (by simp [hx]))]

/-- C4: `parse_pattern` consumes rows only after the first line containing
`PATTERN DATA`, skips exactly the two lines that follow it, and then
appends one point per line exactly when the line has at least five
whitespace tokens whose tokens 0, 1 and 4 all parse as floats; every other
line is silently dropped, and the (possibly incomplete) list is returned
with no error signalled — with no header line at all, the empty list. -/
theorem parse_pattern_spec (out : String) :
    (∀ pre hdr post, pyLines out = pre ++ hdr :: post →
      (∀ l ∈ pre, hasPatternData l = false) → hasPatternData hdr = true →
      parse_pattern out = (post.drop 2).filterMap parseRow) ∧
    ((∀ l ∈ pyLines out, hasPatternData l = false) → parse_pattern out = []) ∧
    (∀ line, (pyTokens line).length < 5 → parseRow line = none) ∧
    (∀ line, (pyFloat ((pyTokens line).getD 0 "") = none ∨
        pyFloat ((pyTokens line).getD 1 "") = none ∨
        pyFloat ((pyTokens line).getD 4 "") = none) → parseRow line = none) ∧
    (∀ line z az g, 5 ≤ (pyTokens line).length →
      pyFloat ((pyTokens line).getD 0 "") = some z →
      pyFloat ((pyTokens line).getD 1 "") = some az →
      pyFloat ((pyTokens line).getD 4 "") = some g →
      parseRow line = some ⟨zenithToEl z, az, g⟩) := by
  refine ⟨?_, ?_, ?_, ?_, ?_⟩
  · intro pre hdr post heq hpre hh
    rw [parse_pattern_eq, heq, dataLines_of_first_header pre hdr post hpre hh]
  · intro h
    rw [parse_pattern_eq, dataLines_of_no_header _ h]
    rfl
  · intro line hlen
    rw [parseRow, if_neg (by omega)]
  · intro line hf
    rw [parseRow]
    by_cases h5 : 5 ≤ (pyTokens line).length
    · rw [if_pos h5]
      rcases h0 : pyFloat ((pyTokens line).getD 0 "") with _ | z0 <;>
        rcases h1 : pyFloat ((pyTokens line).getD 1 "") with _ | az0 <;>
        rcases h4 : pyFloat ((pyTokens line).getD 4 "") with _ | g0 <;>
        simp_all
    · rw [if_neg h5]
  · intro line z az g h5 h0 h1 h4
    rw [parseRow, if_pos h5, h0, h1, h4]

theorem parse_pattern_spec_witness :
    parse_pattern sampleOut =
      ((["colA", "colB", "0 180 0 0 5.5", "bad row"]).drop 2).filterMap parseRow ∧
    parse_pattern sampleOut = [⟨90, 180, 11 / 2⟩] := by
  have h := (parse_pattern_spec sampleOut).1 ["noise"] "PATTERN DATA"
    ["colA", "colB", "0 180 0 0 5.5", "bad row"] (by decide) (by decide) (by decide)
  refine ⟨h, ?_⟩
  rw [h]
  have hbad : parseRow "bad row" = none :=
    (parse_pattern_spec sampleOut).2.2.1 "bad row" (by decide)
  simp [List.filterMap_cons, parseRow_backRow, hbad]

lemma dropPre_eq_some (p : List Char) : ∀ s t, dropPre p s = some t ↔ s = p ++ t := by
  induction p with
  | nil => intro s t; simp [dropPre]
  | cons c cs ih =>
    intro s t
    cases s with
    | nil => simp [dropPre]
    | cons d ds =>
      rw [dropPre]
      by_cases h : d = c
      · subst h; rw [if_pos rfl, ih]; simp
      · rw [if_neg h]; simp [h]

lemma dropPre_append (p t : List Char) : dropPre p (p ++ t) = some t :=
  (dropPre_eq_some p (p ++ t) t).mpr rfl

lemma impChar_ne_space {c : Char} (h : isImpChar c = true) : (c == ' ') = false := by
  rcases Bool.eq_false_or_eq_true (c == ' ') with hf | ht
  · exfalso
    have : c = ' ' := eq_of_beq hf
    subst this
    exact absurd h (by decide)
  · exact ht

lemma space_not_impChar {c : Char} (h : c = ' ') : isImpChar c = false := by
  subst h; decide

lemma takeWhile_append_all {p : Char → Bool} :
    ∀ (xs : List Char), (∀ x ∈ xs, p x = true) →
      ∀ ys, (xs ++ ys).takeWhile p = xs ++ ys.takeWhile p := by
  intro xs
  induction xs with
  | nil => intro _ ys; simp
  | cons c cs ih =>
    intro h ys
    rw [List.cons_append, List.takeWhile_cons, if_pos (h c (by simp)), List.cons_append,
      ih (fun x hx => h x (by simp [hx])) ys]

lemma dropWhile_append_all {p : Char → Bool} :
    ∀ (xs : List Char), (∀ x ∈ xs, p x = true) →
      ∀ ys, (xs ++ ys).dropWhile p = ys.dropWhile p := by
  intro xs
  induction xs with
  | nil => intro _ ys; simp
  | cons c cs ih =>
    intro h ys
    rw [List.cons_append, List.dropWhile_cons, if_pos (h c (by simp)),
      ih (fun x hx => h x (by simp [hx])) ys]

lemma takeWhile_cons_false {p : Char → Bool} {c : Char} (h : p c = false) (cs : List Char) :
    (c :: cs).takeWhile p = [] := by
  rw [List.takeWhile_cons, if_neg (by simp [h])]

lemma dropWhile_cons_false {p : Char → Bool} {c : Char} (h : p c = false) (cs : List Char) :
    (c :: cs).dropWhile p = c :: cs := by
  rw [List.dropWhile_cons, if_neg (by simp [h])]

lemma dropWhile_space_cons {c : Char} (h : (c == ' ') = false) (cs : List Char) :
    (c :: cs).dropWhile (fun x => x == ' ') = c :: cs := by
  rw [List.dropWhile_cons]
  simp only [h]
  rw [if_neg (by simp)]

lemma matchAt_sound (s g1 g2 : List Char) (h : matchAt s = some (g1, g2)) :
    MatchSegWith s g1 g2 := by
  rw [matchAt] at h
  cases hd : dropPre impHeader s with
  | none => rw [hd] at h; simp at h
  | some s1 =>
    rw [hd, Option.some_bind] at h
    set D0 := s1.dropWhile (fun c => c == ' ') with hD0
    set tw1 := D0.takeWhile isImpChar with htw1
    set D1 := D0.dropWhile isImpChar with hD1
    cases hc : dropPre [','] (D1.dropWhile (fun c => c == ' ')) with
    | none => rw [hc] at h; simp at h
    | some s5 =>
      rw [hc, Option.some_bind] at h
      by_cases he1 : tw1.isEmpty = true
      · rw [if_pos he1] at h; simp at h
      · rw [if_neg he1] at h
        set D5 := s5.dropWhile (fun c => c == ' ') with hD5
        set tw5 := D5.takeWhile isImpChar with htw5
        set D2 := D5.dropWhile isImpChar with hD2
        cases hj : dropPre ['J', ')'] (D2.dropWhile (fun c => c == ' ')) with
        | none => rw [hj] at h; simp at h
        | some rest =>
          rw [hj, Option.some_bind] at h
          by_cases he2 : tw5.isEmpty = true
          · rw [if_pos he2] at h; simp at h
          · rw [if_neg he2] at h
            obtain ⟨rfl, rfl⟩ : tw1 = g1 ∧ tw5 = g2 := by simpa using h
            have eS : s = impHeader ++ s1 := (dropPre_eq_some _ _ _).mp hd
            have eA : s1 = s1.takeWhile (fun c => c == ' ') ++ D0 :=
              (List.takeWhile_append_dropWhile _ _).symm
            have eB : D0 = tw1 ++ D1 :=
              (List.takeWhile_append_dropWhile _ _).symm
            have hcomma : D1.dropWhile (fun c => c == ' ') = ',' :: s5 := by
              have := (dropPre_eq_some _ _ _).mp hc
              simpa using this
            have eC : D1 = D1.takeWhile (fun c => c == ' ') ++ (',' :: s5) := by
              rw [← hcomma]
              exact (List.takeWhile_append_dropWhile _ _).symm
            have eD : s5 = s5.takeWhile (fun c => c == ' ') ++ D5 :=
              (List.takeWhile_append_dropWhile _ _).symm
            have eE : D5 = tw5 ++ D2 :=
              (List.takeWhile_append_dropWhile _ _).symm
            have hjp : D2.dropWhile (fun c => c == ' ') = 'J' :: ')' :: rest := by
              have := (dropPre_eq_some _ _ _).mp hj
              simpa using this
            have eF : D2 = D2.takeWhile (fun c => c == ' ') ++ ('J' :: ')' :: rest) := by
              rw [← hjp]
              exact (List.takeWhile_append_dropWhile _ _).symm
            refine ⟨s1.takeWhile (fun c => c == ' '), D1.takeWhile (fun c => c == ' '),
              s5.takeWhile (fun c => c == ' '), D2.takeWhile (fun c => c == ' '), rest,
              ?_, ?_, ?_, ?_, ?_, ?_, ?_, ?_, ?_⟩
            · rw [eS]
              congr 1
              conv_lhs => rw [eA, eB, eC, eD, eE, eF]
            · intro hn; rw [hn] at he1; exact he1 rfl
            · intro hn; rw [hn] at he2; exact he2 rfl
            · exact fun c hc2 => List.mem_takeWhile_imp hc2
            · exact fun c hc2 => List.mem_takeWhile_imp hc2
            all_goals
              intro c hc2
              have h3 := List.mem_takeWhile_imp hc2
              exact eq_of_beq h3

lemma scan_segment (sp g sp2 : List Char) (c : Char) (tail : List Char)
    (hsp : allSpaces sp) (hg : g ≠ []) (hig : allImpChars g) (hsp2 : allSpaces sp2)
    (hcImp : isImpChar c = false) (hcSp : (c == ' ') = false) :
    ((sp ++ (g ++ (sp2 ++ c :: tail))).dropWhile (fun x => x == ' ')).takeWhile isImpChar = g ∧
    (((sp ++ (g ++ (sp2 ++ c :: tail))).dropWhile (fun x => x == ' ')).dropWhile
        isImpChar).dropWhile (fun x => x == ' ') = c :: tail := by
  obtain ⟨c1, g1t, rfl⟩ : ∃ a l, g = a :: l := by
    cases g with
    | nil => exact absurd rfl hg
    | cons a l => exact ⟨a, l, rfl⟩
  have hsp' : ∀ x ∈ sp, (fun x => x == ' ') x = true := by
    intro x hx
    simp [hsp x hx]
  have hsp2' : ∀ x ∈ sp2, (fun x => x == ' ') x = true := by
    intro x hx
    simp [hsp2 x hx]
  have hd0 : (sp ++ (c1 :: g1t ++ (sp2 ++ c :: tail))).dropWhile (fun x => x == ' ') =
      c1 :: g1t ++ (sp2 ++ c :: tail) := by
    rw [dropWhile_append_all sp hsp', List.cons_append,
      dropWhile_space_cons (impChar_ne_space (hig c1 (by simp))), ← List.cons_append]
  have htk : (sp2 ++ c :: tail).takeWhile isImpChar = [] := by
    cases sp2 with
    | nil => exact takeWhile_cons_false hcImp tail
    | cons d sp2t =>
      exact takeWhile_cons_false (space_not_impChar (hsp2 d (by simp))) _
  have hdk : (sp2 ++ c :: tail).dropWhile isImpChar = sp2 ++ c :: tail := by
    cases sp2 with
    | nil => exact dropWhile_cons_false hcImp tail
    | cons d sp2t =>
      exact dropWhile_cons_false (space_not_impChar (hsp2 d (by simp))) _
  constructor
  · rw [hd0, List.cons_append, ← List.cons_append,
      takeWhile_append_all (c1 :: g1t) (fun x hx => hig x hx) (sp2 ++ c :: tail), htk,
      List.append_nil]
  · rw [hd0, List.cons_append, ← List.cons_append,
      dropWhile_append_all (c1 :: g1t) (fun x hx => hig x hx) (sp2 ++ c :: tail), hdk,
      dropWhile_append_all sp2 hsp2', dropWhile_space_cons hcSp]

lemma matchAt_complete (s g1 g2 : List Char) (h : MatchSegWith s g1 g2) :
    matchAt s = some (g1, g2) := by
  obtain ⟨s1, s2, s3, s4, rest, heq, hg1, hg2, hig1, hig2, hs1, hs2, hs3, hs4⟩ := h
  subst heq
  have seg1 := scan_segment s1 g1 s2 ',' (s3 ++ (g2 ++ (s4 ++ 'J' :: ')' :: rest)))
    hs1 hg1 hig1 hs2 (by decide) (by decide)
  have seg2 := scan_segment s3 g2 s4 'J' (')' :: rest) hs3 hg2 hig2 hs4 (by decide) (by decide)
  have hne1 : g1.isEmpty = false := by
    cases g1 with
    | nil => exact absurd rfl hg1
    | cons a l => rfl
  have hne2 : g2.isEmpty = false := by
    cases g2 with
    | nil => exact absurd rfl hg2
    | cons a l => rfl
  rw [matchAt, dropPre_append, Option.some_bind, seg1.2]
  have hdc : dropPre [','] (',' :: (s3 ++ (g2 ++ (s4 ++ 'J' :: ')' :: rest)))) =
      some (s3 ++ (g2 ++ (s4 ++ 'J' :: ')' :: rest))) :=
    (dropPre_eq_some _ _ _).mpr rfl
  rw [hdc, Option.some_bind, seg1.1]
  rw [if_neg (by simp [hne1])]
  rw [seg2.2]
  have hdj : dropPre ['J', ')'] ('J' :: ')' :: rest) = some rest :=
    (dropPre_eq_some _ _ _).mpr rfl
  rw [hdj, Option.some_bind, seg2.1]
  rw [if_neg (by simp [hne2])]

lemma matchAt_nil : matchAt [] = none := by decide

lemma findImp_none_iff (s : List Char) : findImp s = none ↔ ¬ HasImpMatch s := by
  induction s with
  | nil =>
    simp only [findImp, true_iff]
    rintro ⟨pre, g1, g2, suf, heq, hm⟩
    obtain ⟨-, hsuf⟩ := List.append_eq_nil.mp heq.symm
    subst hsuf
    have := matchAt_complete [] g1 g2 hm
    rw [matchAt_nil] at this
    exact absurd this (by simp)
  | cons c cs ih =>
    rw [findImp]
    cases hm : matchAt (c :: cs) with
    | some r =>
      obtain ⟨g1, g2⟩ := r
      exact iff_of_false (by simp)
        (fun hn => hn ⟨[], g1, g2, c :: cs, rfl, matchAt_sound _ _ _ hm⟩)
    | none =>
      show findImp cs = none ↔ ¬ HasImpMatch (c :: cs)
      rw [ih]
      constructor
      · intro hn hH
        obtain ⟨pre, g1, g2, suf, heq, hmm⟩ := hH
        cases pre with
        | nil =>
          obtain rfl : suf = c :: cs := by simpa using heq.symm
          rw [matchAt_complete _ g1 g2 hmm] at hm
          exact absurd hm (by simp)
        | cons p pre2 =>
          rw [List.cons_append] at heq
          injection heq with h1 h2
          exact hn ⟨pre2, g1, g2, suf, h2, hmm⟩
      · intro hn hH
        obtain ⟨pre, g1, g2, suf, heq, hmm⟩ := hH
        exact hn ⟨c :: pre, g1, g2, suf, by rw [List.cons_append, ← heq], hmm⟩

lemma findImp_some (s : List Char) : ∀ g1 g2, findImp s = some (g1, g2) → HasImpMatch s := by
  induction s with
  | nil => intro g1 g2 h; exact absurd h (by simp [findImp])
  | cons c cs ih =>
    intro g1 g2 h
    rw [findImp] at h
    cases hm : matchAt (c :: cs) with
    | some r =>
      rw [hm] at h
      obtain rfl : r = (g1, g2) := by simpa using h
      exact ⟨[], g1, g2, c :: cs, rfl, matchAt_sound _ _ _ hm⟩
    | none =>
      rw [hm] at h
      obtain ⟨pre, a, b, suf, heq, hmm⟩ := ih g1 g2 h
      exact ⟨c :: pre, a, b, suf, by rw [List.cons_append, ← heq], hmm⟩

lemma parse_impedance_of_findImp_none {out : String}
    (hf : findImp out.toList = none) : parse_impedance out = .ok none := by
  rw [parse_impedance, hf]

lemma parse_impedance_of_findImp_some {out : String} {g1 g2 : List Char}
    (hf : findImp out.toList = some (g1, g2)) :
    parse_impedance out =
      match pyFloat (String.mk g1), pyFloat (String.mk g2) with
      | some R, some X => .ok (some (R, X))
      | _, _ => .error "ValueError: could not convert string to float" := by
  rw [parse_impedance, hf]

/-- C5 (amended): `parse_impedance` returns `none` exactly when the text
contains no occurrence of the impedance pattern; when it returns a pair the
text does contain an occurrence (the leftmost one, whose capture groups
parse as the returned floats); and when the leftmost occurrence's capture
groups are not valid float literals it raises `ValueError` instead of
returning — so a match does not guarantee a returned pair. -/
theorem parse_impedance_spec (out : String) :
    (parse_impedance out = .ok none ↔ ¬ HasImpMatch out.toList) ∧
    (∀ R X, parse_impedance out = .ok (some (R, X)) →
      ∃ g1 g2, findImp out.toList = some (g1, g2) ∧
        pyFloat (String.mk g1) = some R ∧ pyFloat (String.mk g2) = some X ∧
        HasImpMatch out.toList) ∧
    (∀ e, parse_impedance out = .error e → HasImpMatch out.toList) := by
  cases hf : findImp out.toList with
  | none =>
    have he := parse_impedance_of_findImp_none hf
    refine ⟨?_, ?_, ?_⟩
    · rw [he]
      simp only [true_iff]
      exact (findImp_none_iff out.toList).mp hf
    · intro R X h; rw [he] at h; exact absurd h (by simp)
    · intro e h; rw [he] at h; exact absurd h (by simp)
  | some r =>
    obtain ⟨g1, g2⟩ := r
    have hH : HasImpMatch out.toList := findImp_some out.toList g1 g2 hf
    have heq := parse_impedance_of_findImp_some hf
    cases h1 : pyFloat (String.mk g1) with
    | none =>
      cases h2 : pyFloat (String.mk g2) with
      | none =>
        have he : parse_impedance out =
            .error "ValueError: could not convert string to float" := by rw [heq, h1, h2]
        refine ⟨?_, ?_, fun e _ => hH⟩
        · rw [he]; exact iff_of_false (by simp) (fun hn => hn hH)
        · intro R X h; rw [he] at h; exact absurd h (by simp)
      | some X0 =>
        have he : parse_impedance out =
            .error "ValueError: could not convert string to float" := by rw [heq, h1, h2]
        refine ⟨?_, ?_, fun e _ => hH⟩
        · rw [he]; exact iff_of_false (by simp) (fun hn => hn hH)
        · intro R X h; rw [he] at h; exact absurd h (by simp)
    | some R0 =>
      cases h2 : pyFloat (String.mk g2) with
      | none =>
        have he : parse_impedance out =
            .error "ValueError: could not convert string to float" := by rw [heq, h1, h2]
        refine ⟨?_, ?_, fun e _ => hH⟩
        · rw [he]; exact iff_of_false (by simp) (fun hn => hn hH)
        · intro R X h; rw [he] at h; exact absurd h (by simp)
      | some X0 =>
        have he : parse_impedance out = .ok (some (R0, X0)) := by rw [heq, h1, h2]
        refine ⟨?_, ?_, ?_⟩
        · rw [he]; exact iff_of_false (by simp) (fun hn => hn hH)
        · intro R X h
          rw [he] at h
          simp only [Except.ok.injEq, Option.some.injEq, Prod.mk.injEq] at h
          exact ⟨g1, g2, rfl, by rw [h1, h.1], by rw [h2, h.2], hH⟩
        · intro e h; rw [he] at h; exact absurd h (by simp)

/-- C5 counterexample: this text contains a line matching the impedance
pattern (indeed two occurrences, the second with perfectly numeric capture
groups), yet `parse_impedance` neither returns a pair nor `None`: the
leftmost match's groups are the non-numeric `e`, so `float()` raises. -/
theorem parse_impedance_counterexample :
    HasImpMatch badImpedanceOut.toList ∧
    parse_impedance badImpedanceOut = .error "ValueError: could not convert string to float" := by
  constructor
  · exact findImp_some badImpedanceOut.toList ['e'] ['e'] (by decide)
  · decide

theorem parse_impedance_spec_witness :
    parse_impedance goodImpedanceOut = .ok (some (50, -25/2)) ∧
    HasImpMatch goodImpedanceOut.toList := by
  have heq : parse_impedance goodImpedanceOut = .ok (some (50, -25/2)) := by
    have hfind : findImp goodImpedanceOut.toList =
        some (['5', '0', '.', '0'], ['-', '1', '2', '.', '5']) := by decide
    rw [parse_impedance_of_findImp_some hfind]
    have h1 : pyFloat (String.mk ['5', '0', '.', '0']) = some 50 := by
      have h : pyFloat (String.mk ['5', '0', '.', '0']) =
          some ((digitsToNat ['5', '0'] : ℚ) + (digitsToNat ['0'] : ℚ) / 10 ^ (1 : ℕ)) := rfl
      rw [h, show digitsToNat ['5', '0'] = 50 from by decide,
        show digitsToNat ['0'] = 0 from by decide]
      norm_num
    have h2 : pyFloat (String.mk ['-', '1', '2', '.', '5']) = some (-25/2) := by
      have h : pyFloat (String.mk ['-', '1', '2', '.', '5']) =
          some (-((digitsToNat ['1', '2'] : ℚ) + (digitsToNat ['5'] : ℚ) / 10 ^ (1 : ℕ))) := rfl
      rw [h, show digitsToNat ['1', '2'] = 12 from by decide,
        show digitsToNat ['5'] = 5 from by decide]
      norm_num
    rw [h1, h2]
  obtain ⟨g1, g2, -, -, -, hH⟩ := (parse_impedance_spec goodImpedanceOut).2.1 50 (-25/2) heq
  exact ⟨heq, hH⟩
